import Mathlib

/-!
Verification of the New-Hackpad firmware configuration
(`src/productions/Firmware/main.py`) against its specification.

The repository itself is configuration-only: it parametrizes an external
keyboard-firmware framework with matrix pins, a keymap, two macros, an LED
and an OLED display.  The configuration data (pins, keymap grid, macro
definitions, display timings, the peripheral-initialization error handling
and the `__main__` entry point) is embedded here directly from the source.
The event-driven core the specification describes (matrix scanner with
debounce, diode-orientation decoder, keymap resolver, macro engine, HID
output sink, display idle timers) is not present in the repository's
source; those components are modelled from the specification's words and
are marked `Modelled from the spec:` in their doc comments.
-/

namespace Hackpad

/-! ## Pins (source lines 13-30) -/

/-- Board pins used by the configuration (`board.GPn` identifiers). -/
inductive Pin
  | GP0 | GP1 | GP2 | GP4 | GP5 | GP7 | GP8 | GP9 | GP10
deriving DecidableEq, Repr

/-- `COL0 = board.GP0`, `COL1 = board.GP1`, `COL2 = board.GP2`. -/
def col_pins : List Pin := [Pin.GP0, Pin.GP1, Pin.GP2]

/-- `ROW0 = board.GP7`, `ROW1 = board.GP8`, `ROW2 = board.GP9`. -/
def row_pins : List Pin := [Pin.GP7, Pin.GP8, Pin.GP9]

/-- `LED_PIN = board.GP10`. -/
def LED_PIN : Pin := Pin.GP10

/-- Number of matrix columns, from the configured `col_pins` tuple. -/
def numCols : Nat := col_pins.length

/-- Number of matrix rows, from the configured `row_pins` tuple. -/
def numRows : Nat := row_pins.length

/-! ## Keycodes and actions -/

/-- The keycodes the configuration mentions (`KC.N0`..`KC.N6`, `KC.W`,
`KC.Q`, `KC.ENTER`, `KC.SCOLON`, `KC.LSHIFT`). -/
inductive Keycode
  | N0 | N1 | N2 | N3 | N4 | N5 | N6
  | W | Q | ENTER | SCOLON | LSHIFT
deriving DecidableEq, Repr

/-- Whether a keycode is a modifier.  Modifier keycodes set bits in the
report's modifier mask instead of occupying a report slot (spec 4.5). -/
def Keycode.isModifier : Keycode → Bool
  | Keycode.LSHIFT => true
  | _ => false

/-- A macro step (spec 3, Macro): press, release or delay. -/
inductive MacroStep
  | press (k : Keycode)
  | release (k : Keycode)
  | delay (duration : Nat)
deriving DecidableEq, Repr

/-- An argument to `KC.MACRO(...)` in the source: either a plain keycode
(`KC.W`) or a modified keycode (`KC.LSHIFT(KC.SCOLON)`). -/
inductive MacroArg
  | simple (k : Keycode)
  | modified (modifier base : Keycode)
deriving DecidableEq, Repr

/-- Modelled from the spec: the framework's `KC.MACRO` (not in this
repository) turns each keycode argument into a tap.  Per the spec's
Scenario 1, `KC.LSHIFT(KC.SCOLON)` expands to
`[Press(Shift), Press(Semicolon), Release(Semicolon), Release(Shift)]`
and a plain keycode to press-then-release. -/
def MacroArg.steps : MacroArg → List MacroStep
  | MacroArg.simple k => [MacroStep.press k, MacroStep.release k]
  | MacroArg.modified m b =>
      [MacroStep.press m, MacroStep.press b,
       MacroStep.release b, MacroStep.release m]

/-- A macro: an ordered, finite step sequence plus the cosmetic
description label (spec 3 and 9). -/
structure Macro where
  steps : List MacroStep
  description : String
deriving DecidableEq, Repr

/-- Modelled from the spec: the framework's `KC.MACRO(args, description=d)`
constructor, expanding each argument to its tap steps in order. -/
def KC_MACRO (args : List MacroArg) (description : String) : Macro :=
  { steps := (args.map MacroArg.steps).flatten, description := description }

/-- `SAVE = KC.MACRO(KC.LSHIFT(KC.SCOLON), KC.W, KC.ENTER,
description=":w<Enter>")` (source lines 165-170). -/
def SAVE : Macro :=
  KC_MACRO
    [MacroArg.modified Keycode.LSHIFT Keycode.SCOLON,
     MacroArg.simple Keycode.W,
     MacroArg.simple Keycode.ENTER]
    ":w<Enter>"

/-- `QUIT = KC.MACRO(KC.LSHIFT(KC.SCOLON), KC.W, KC.Q, KC.ENTER,
description=":wq<Enter>")` (source lines 171-177). -/
def QUIT : Macro :=
  KC_MACRO
    [MacroArg.modified Keycode.LSHIFT Keycode.SCOLON,
     MacroArg.simple Keycode.W,
     MacroArg.simple Keycode.Q,
     MacroArg.simple Keycode.ENTER]
    ":wq<Enter>"

/-- An action bound to a key: a simple keycode or a macro reference
(spec 3, Action; the layer-shift and modified variants are unused by this
configuration's keymap). -/
inductive Action
  | key (k : Keycode)
  | macroRef (m : Macro)
deriving DecidableEq, Repr

/-- The keymap grid exactly as written at source lines 182-186:
three bracketed rows of three entries under the comment `# Layer 0`. -/
def keymapGrid : List (List Action) :=
  [[Action.key Keycode.N1, Action.key Keycode.N2, Action.key Keycode.N3],
   [Action.key Keycode.N4, Action.key Keycode.N5, Action.key Keycode.N6],
   [Action.macroRef SAVE, Action.key Keycode.N0, Action.macroRef QUIT]]

/-- Modelled from the spec: a Layer is an ordered sequence of Actions
indexed by logical key index (spec 3); the source's grid, commented
`# Layer 0`, is that single layer in row-major order. -/
def layer0 : List Action := keymapGrid.flatten

/-- The keymap as an ordered sequence of layers (spec 3); this
configuration defines only layer 0. -/
def keymap : List (List Action) := [layer0]

/-! ## Diode orientation and the decoder -/

/-- `DiodeOrientation` from the framework's scanners module; the source
sets `keyboard.diode_orientation = DiodeOrientation.COL2ROW` (line 158). -/
inductive DiodeOrientation
  | COL2ROW
  | ROW2COL
deriving DecidableEq, Repr

/-- `keyboard.diode_orientation = DiodeOrientation.COL2ROW`. -/
def diode_orientation : DiodeOrientation := DiodeOrientation.COL2ROW

/-- A side of the matrix: the column lines or the row lines. -/
inductive MatrixSide
  | columns
  | rows
deriving DecidableEq, Repr

/-- Modelled from the spec: the orientation determines strobe direction
during scanning, i.e. which side is driven and which side is sampled
(spec 4.2): `(driven, sampled)`. -/
def strobeSides : DiodeOrientation → MatrixSide × MatrixSide
  | DiodeOrientation.COL2ROW => (MatrixSide.columns, MatrixSide.rows)
  | DiodeOrientation.ROW2COL => (MatrixSide.rows, MatrixSide.columns)

/-- Modelled from the spec: the Diode-Orientation Decoder, a pure function
`(position, orientation) -> logical_index`; the logical index mapping is
always `row * num_cols + col` regardless of orientation (spec 4.2). -/
def logicalIndex (_orientation : DiodeOrientation)
    (nCols row col : Nat) : Nat :=
  row * nCols + col

/-! ## Keymap resolver -/

/-- Modelled from the spec: the Keymap Resolver looks up the Action at
`layer[logical_index]`, silently ignoring (returning `none` for) an index
beyond the configured layer length (spec 4.3). -/
def resolveAction (layer : List Action) (idx : Nat) : Option Action :=
  layer.get? idx

/-- Modelled from the spec: startup configuration validation - each layer
length equals rows × cols (spec 4.3). -/
def validateKeymap (km : List (List Action)) (rows cols : Nat) : Bool :=
  km.all (fun layer => layer.length == rows * cols)

/-! ## HID output sink (spec 4.5, modelled from the spec) -/

/-- The HID report state: the set of currently held non-modifier keycodes
(bounded by the report slot count) plus the modifier mask, here kept as a
duplicate-free list of modifier keycodes (spec 3, HID Report State). -/
structure HIDReport where
  keys : List Keycode
  mods : List Keycode
deriving DecidableEq, Repr

/-- The empty HID report. -/
def HIDReport.empty : HIDReport := { keys := [], mods := [] }

/-- The HID boot-keyboard report slot count: up to 6 simultaneous
non-modifier keys (spec 3 and 4.5). -/
def hidSlots : Nat := 6

/-- Modelled from the spec: on Pressed the sink inserts the keycode into
the report's key set if not already full; if full the new key is dropped
and never queued.  Modifier keycodes go to the modifier mask instead of a
report slot (spec 4.5). -/
def pressKey (k : Keycode) (r : HIDReport) : HIDReport :=
  if k.isModifier then
    if k ∈ r.mods then r else { r with mods := r.mods ++ [k] }
  else
    if k ∈ r.keys then r
    else if r.keys.length < hidSlots then { r with keys := r.keys ++ [k] }
    else r

/-- Modelled from the spec: on Released the sink removes the keycode if
present; removing an absent keycode is a no-op, not an error (spec 4.5). -/
def releaseKey (k : Keycode) (r : HIDReport) : HIDReport :=
  if k.isModifier then
    if k ∈ r.mods then { r with mods := r.mods.erase k } else r
  else
    if k ∈ r.keys then { r with keys := r.keys.erase k } else r

/-- The kind of a key event (spec 4.1, `KeyEvent.kind`). -/
inductive KeyEventKind
  | Pressed
  | Released
deriving DecidableEq, Repr

/-- The sink's state: the current report plus the dirty flag that gates
flushing (spec 4.5). -/
structure SinkState where
  report : HIDReport
  dirty : Bool
deriving DecidableEq, Repr

/-- Modelled from the spec: `apply(keycode, kind)` - mutate the report per
the event kind and mark it dirty after any mutation; a no-op application
leaves the dirty flag untouched (spec 4.5). -/
def sinkApply (k : Keycode) (kind : KeyEventKind) (s : SinkState) :
    SinkState :=
  let r :=
    match kind with
    | KeyEventKind.Pressed => pressKey k s.report
    | KeyEventKind.Released => releaseKey k s.report
  if r = s.report then s else { report := r, dirty := true }

/-- Modelled from the spec: the periodic flush serializes and submits the
current report only when dirty, to avoid redundant transport writes
(spec 4.5).  Returns the new sink state and the report sent, if any. -/
def flushTick (s : SinkState) : SinkState × Option HIDReport :=
  if s.dirty then ({ s with dirty := false }, some s.report) else (s, none)

/-! ## Macro engine (spec 4.4, modelled from the spec) -/

/-- The keycodes a macro step mentions. -/
def MacroStep.codes : MacroStep → List Keycode
  | MacroStep.press k => [k]
  | MacroStep.release k => [k]
  | MacroStep.delay _ => []

/-- The keycodes a macro step presses. -/
def MacroStep.pressedCodes : MacroStep → List Keycode
  | MacroStep.press k => [k]
  | _ => []

/-- All keycodes mentioned anywhere in a step sequence. -/
def stepsCodes (steps : List MacroStep) : List Keycode :=
  (steps.map MacroStep.codes).flatten

/-- All keycodes pressed by a step sequence. -/
def stepsPressedCodes (steps : List MacroStep) : List Keycode :=
  (steps.map MacroStep.pressedCodes).flatten

/-- Modelled from the spec: one macro step applied to the report - a Press
step asserts the keycode, a Release step clears it, a Delay step suspends
progression without touching the report (spec 4.4). -/
def applyStep (st : MacroStep) (r : HIDReport) : HIDReport :=
  match st with
  | MacroStep.press k => pressKey k r
  | MacroStep.release k => releaseKey k r
  | MacroStep.delay _ => r

/-- Run a step sequence in order over the report. -/
def runSteps (steps : List MacroStep) (r : HIDReport) : HIDReport :=
  steps.foldl (fun acc st => applyStep st acc) r

/-- Modelled from the spec: the auto-release safety net - on completion
every keycode the macro pressed is released even if the sequence did not
explicitly release it (spec 4.4). -/
def autoRelease (pressed : List Keycode) (r : HIDReport) : HIDReport :=
  { keys := r.keys.filter (fun k => !(pressed.contains k)),
    mods := r.mods.filter (fun k => !(pressed.contains k)) }

/-- Modelled from the spec: a full macro expansion from `Expanding(0)` to
completion - run the steps in order, then auto-release everything the
macro pressed, transitioning back to Idle (spec 4.4). -/
def runMacro (m : Macro) (r : HIDReport) : HIDReport :=
  autoRelease (stepsPressedCodes m.steps) (runSteps m.steps r)

/-- Modelled from the spec: macro expansion through the sink with the
periodic flush after each tick (one step per tick, spec 5 and 4.5),
recording every report submitted to the transport layer. -/
def runStepsTrace (steps : List MacroStep) (s : SinkState) :
    SinkState × List HIDReport :=
  match steps with
  | [] => (s, [])
  | st :: rest =>
      let s1 :=
        match st with
        | MacroStep.press k => sinkApply k KeyEventKind.Pressed s
        | MacroStep.release k => sinkApply k KeyEventKind.Released s
        | MacroStep.delay _ => s
      let flushed := flushTick s1
      let res := runStepsTrace rest flushed.1
      (res.1, flushed.2.toList ++ res.2)

/-! ## Matrix scanner debounce (spec 4.1 and the Key State data model,
modelled from the spec) -/

/-- Modelled from the spec: the per-key debounce state machine value
`{Idle, PressPending, Pressed, ReleasePending}` (spec 3, Key State); the
pending states carry the count of consecutive samples at the new level. -/
inductive DebounceState
  | Idle
  | PressPending (count : Nat)
  | Pressed
  | ReleasePending (count : Nat)
deriving DecidableEq, Repr

/-- Modelled from the spec: one scan tick for one key - compare the new
sample to the debounce state; a transition is accepted only after the new
level has been stable for `window` consecutive samples, and bouncing
samples within the window reset the pending state without emitting edges
(spec 4.1).  `true` samples mean the key reads pressed.  Returns the new
state and the emitted edge, if any. -/
def debounceStep (window : Nat) (s : DebounceState) (sample : Bool) :
    DebounceState × Option KeyEventKind :=
  match s, sample with
  | DebounceState.Idle, false => (DebounceState.Idle, none)
  | DebounceState.Idle, true =>
      if window ≤ 1 then (DebounceState.Pressed, some KeyEventKind.Pressed)
      else (DebounceState.PressPending 1, none)
  | DebounceState.PressPending c, true =>
      if window ≤ c + 1 then
        (DebounceState.Pressed, some KeyEventKind.Pressed)
      else (DebounceState.PressPending (c + 1), none)
  | DebounceState.PressPending _, false => (DebounceState.Idle, none)
  | DebounceState.Pressed, true => (DebounceState.Pressed, none)
  | DebounceState.Pressed, false =>
      if window ≤ 1 then (DebounceState.Idle, some KeyEventKind.Released)
      else (DebounceState.ReleasePending 1, none)
  | DebounceState.ReleasePending c, false =>
      if window ≤ c + 1 then
        (DebounceState.Idle, some KeyEventKind.Released)
      else (DebounceState.ReleasePending (c + 1), none)
  | DebounceState.ReleasePending _, true => (DebounceState.Pressed, none)

/-- Run the debouncer over a sample sequence, collecting emitted edges in
order. -/
def debounceRun (window : Nat) (s : DebounceState) (samples : List Bool) :
    DebounceState × List KeyEventKind :=
  match samples with
  | [] => (s, [])
  | x :: xs =>
      let step := debounceStep window s x
      let rest := debounceRun window step.1 xs
      (rest.1, step.2.toList ++ rest.2)

/-! ## Display (source lines 91-110 and spec 4.6) -/

/-- The display configuration passed to `Display(...)` at source lines
91-103, restricted to its integer-valued fields (the fractional brightness
levels `dim_target=0.2`, `brightness=0.8`, `brightness_step=0.1` are not
needed by the idle-timer behaviour). -/
structure DisplayConfig where
  width : Nat
  height : Nat
  dim_time : Nat
  off_time : Nat
  fade_time : Nat
deriving DecidableEq, Repr

/-- `Display(display=driver, width=128, height=64, ..., dim_time=10,
off_time=60, fade_time=1, ...)`. -/
def displayConfig : DisplayConfig :=
  { width := 128, height := 64, dim_time := 10, off_time := 60,
    fade_time := 1 }

/-- A display power state: full brightness, dimmed, or off. -/
inductive DisplayPower
  | Bright
  | Dimmed
  | Off
deriving DecidableEq, Repr

/-- Modelled from the spec: the display's inactivity clock, a non-blocking
countdown advanced each tick and reset by every event (spec 4.6 and 5);
`idle` counts seconds since the last event. -/
structure DisplayTimerState where
  idle : Nat
deriving DecidableEq, Repr

/-- An input to the display timer: one second of inactivity elapsing, or a
key event arriving. -/
inductive DisplayInput
  | second
  | event
deriving DecidableEq, Repr

/-- Modelled from the spec: advance the inactivity clock on a tick; reset
it on every event (spec 4.6). -/
def displayStep (s : DisplayTimerState) :
    DisplayInput → DisplayTimerState
  | DisplayInput.second => { idle := s.idle + 1 }
  | DisplayInput.event => { idle := 0 }

/-- Run the display timer over a sequence of inputs. -/
def displayRun (s : DisplayTimerState) (inputs : List DisplayInput) :
    DisplayTimerState :=
  inputs.foldl displayStep s

/-- Modelled from the spec: the power state implied by the inactivity
clock - dim after `dim_time` seconds idle, off after `off_time` seconds
idle, bright otherwise (spec 4.6). -/
def displayPower (cfg : DisplayConfig) (s : DisplayTimerState) :
    DisplayPower :=
  if cfg.off_time ≤ s.idle then DisplayPower.Off
  else if cfg.dim_time ≤ s.idle then DisplayPower.Dimmed
  else DisplayPower.Bright

/-! ## Peripheral initialization (source lines 32-159) -/

/-- An extension appended to `keyboard.extensions`. -/
inductive Extension
  | display
  | led
deriving DecidableEq, Repr

/-- The outcome of the startup configuration sequence: which extensions
were appended and whether the matrix was configured. -/
structure KeyboardSetup where
  extensions : List Extension
  matrixConfigured : Bool
  colPins : List Pin
  rowPins : List Pin
  orientation : DiodeOrientation
deriving DecidableEq, Repr

/-- The startup flow of source lines 32-159, with one Boolean per guarded
constructor saying whether it raises.  Every `try` block catches all the
exception types its constructor can raise (each chain ends in
`except Exception`): a failed I2C setup leaves `bus = None`, which skips
the SSD1306 driver, which skips the Display extension, which is then not
appended; a failed LED constructor is caught and the LED is not appended;
the matrix pins and diode orientation are configured unconditionally
afterwards (lines 153-158). -/
def setupKeyboard (i2cRaises ssd1306Raises displayExtRaises
    ledRaises : Bool) : KeyboardSetup :=
  let busOk := !i2cRaises
  let driverOk := busOk && !ssd1306Raises
  let displayExtOk := driverOk && !displayExtRaises
  let ledOk := !ledRaises
  { extensions :=
      (if displayExtOk then [Extension.display] else []) ++
      (if ledOk then [Extension.led] else []),
    matrixConfigured := true,
    colPins := col_pins,
    rowPins := row_pins,
    orientation := diode_orientation }

/-! ## Process entry point (source lines 190-199) -/

/-- The exception values relevant to the `__main__` block.  `raise` in
Python accepts any `BaseException`; `KeyboardInterrupt` and `SystemExit`
derive from `BaseException` but not from `Exception`, while the error
types named in the source's handlers all derive from `Exception`. -/
inductive PyError
  | valueError
  | runtimeError
  | osError
  | nameError
  | indexError
  | genericException
  | keyboardInterrupt
  | systemExit
deriving DecidableEq, Repr

/-- Whether the error derives from Python's `Exception` class (the class
the source's `except Exception as e` handler catches). -/
def PyError.isExceptionSubclass : PyError → Bool
  | PyError.keyboardInterrupt => false
  | PyError.systemExit => false
  | _ => true

/-- The error type name printed by `type(e).__name__`. -/
def PyError.typeName : PyError → String
  | PyError.valueError => "ValueError"
  | PyError.runtimeError => "RuntimeError"
  | PyError.osError => "OSError"
  | PyError.nameError => "NameError"
  | PyError.indexError => "IndexError"
  | PyError.genericException => "Exception"
  | PyError.keyboardInterrupt => "KeyboardInterrupt"
  | PyError.systemExit => "SystemExit"

/-- How the process ends when `keyboard.go()` raises. -/
inductive MainOutcome
  | fatalReported (errType : String)
  | propagated (e : PyError)
deriving DecidableEq, Repr

/-- The `__main__` block of source lines 190-199: `keyboard.go()` runs
inside `try ... except Exception as e`; an `Exception`-derived error is
caught, reported as `FATAL ERROR` with its type name, and the script then
falls off the end (halts).  An error not derived from `Exception` is not
caught by the handler and propagates out of the script. -/
def handleGoError (e : PyError) : MainOutcome :=
  if e.isExceptionSubclass then MainOutcome.fatalReported e.typeName
  else MainOutcome.propagated e

/-- Whether the outcome is the reported-and-halted one. -/
def MainOutcome.isFatalReported : MainOutcome → Bool
  | MainOutcome.fatalReported _ => true
  | MainOutcome.propagated _ => false

/-! ## Theorems -/

/-- Helper: the codes of a step sequence decompose head-first. -/
theorem stepsCodes_cons (st : MacroStep) (rest : List MacroStep) :
    stepsCodes (st :: rest) = st.codes ++ stepsCodes rest := rfl

/-- Helper: the pressed codes of a step sequence decompose head-first. -/
theorem stepsPressedCodes_cons (st : MacroStep) (rest : List MacroStep) :
    stepsPressedCodes (st :: rest) =
      st.pressedCodes ++ stepsPressedCodes rest := rfl

/-- Helper: one macro step over a report of the form
`⟨base.keys ++ ek, base.mods ++ em⟩` with the step's keycodes disjoint
from the base keeps that form, and the extra keys stay inside `P` when
the step's pressed keycodes are in `P`. -/
theorem applyStep_extra (P : List Keycode) (st : MacroStep)
    (r : HIDReport) (ek em : List Keycode)
    (hd : ∀ k ∈ st.codes, k ∉ r.keys ∧ k ∉ r.mods)
    (hp : ∀ k ∈ st.pressedCodes, k ∈ P)
    (hek : ∀ x ∈ ek, x ∈ P) (hem : ∀ x ∈ em, x ∈ P) :
    ∃ ek' em',
      applyStep st { keys := r.keys ++ ek, mods := r.mods ++ em } =
        { keys := r.keys ++ ek', mods := r.mods ++ em' } ∧
      (∀ x ∈ ek', x ∈ P) ∧ (∀ x ∈ em', x ∈ P) := by
  match st with
  | MacroStep.delay d => exact ⟨ek, em, rfl, hek, hem⟩
  | MacroStep.press k =>
      have hk := hd k (by simp [MacroStep.codes])
      have hkP : k ∈ P := hp k (by simp [MacroStep.pressedCodes])
      by_cases hm : k.isModifier
      · by_cases hmem : k ∈ r.mods ++ em
        · exact ⟨ek, em, by simp [applyStep, pressKey, hm, hmem], hek, hem⟩
        · refine ⟨ek, em ++ [k], ?_, hek, ?_⟩
          · simp [applyStep, pressKey, hm, hmem]
          · intro x hx
            rcases List.mem_append.mp hx with h | h
            · exact hem x h
            · simp at h
              exact h ▸ hkP
      · by_cases hmem : k ∈ r.keys ++ ek
        · exact ⟨ek, em, by simp [applyStep, pressKey, hm, hmem], hek, hem⟩
        · by_cases hroom : (r.keys ++ ek).length < hidSlots
          · have hroom' : r.keys.length + ek.length < hidSlots := by
              simpa using hroom
            refine ⟨ek ++ [k], em, ?_, ?_, hem⟩
            · simp [applyStep, pressKey, hm, hmem, hroom']
            · intro x hx
              rcases List.mem_append.mp hx with h | h
              · exact hek x h
              · simp at h
                exact h ▸ hkP
          · have hroom' : ¬ r.keys.length + ek.length < hidSlots := by
              simpa using hroom
            exact ⟨ek, em,
              by simp [applyStep, pressKey, hm, hmem, hroom'], hek, hem⟩
  | MacroStep.release k =>
      have hk := hd k (by simp [MacroStep.codes])
      by_cases hm : k.isModifier
      · by_cases hmem : k ∈ r.mods ++ em
        · refine ⟨ek, em.erase k, ?_, hek, ?_⟩
          · simp only [applyStep, releaseKey, hm, if_true, hmem]
            simp [List.erase_append_right em hk.2]
          · intro x hx
            exact hem x (List.mem_of_mem_erase hx)
        · exact ⟨ek, em, by simp [applyStep, releaseKey, hm, hmem],
            hek, hem⟩
      · by_cases hmem : k ∈ r.keys ++ ek
        · refine ⟨ek.erase k, em, ?_, ?_, hem⟩
          · simp only [applyStep, releaseKey, hm, hmem]
            simp [List.erase_append_right ek hk.1]
          · intro x hx
            exact hek x (List.mem_of_mem_erase hx)
        · exact ⟨ek, em, by simp [applyStep, releaseKey, hm, hmem],
            hek, hem⟩

/-- Helper: running a step sequence over a report of the extended form
keeps the form, with all extras drawn from `P` whenever every keycode the
sequence presses is in `P` and every keycode it mentions is disjoint from
the base report. -/
theorem runSteps_extra (P : List Keycode) :
    ∀ (steps : List MacroStep) (r : HIDReport) (ek em : List Keycode),
      (∀ k ∈ stepsCodes steps, k ∉ r.keys ∧ k ∉ r.mods) →
      (∀ k ∈ stepsPressedCodes steps, k ∈ P) →
      (∀ x ∈ ek, x ∈ P) → (∀ x ∈ em, x ∈ P) →
      ∃ ek' em',
        runSteps steps { keys := r.keys ++ ek, mods := r.mods ++ em } =
          { keys := r.keys ++ ek', mods := r.mods ++ em' } ∧
        (∀ x ∈ ek', x ∈ P) ∧ (∀ x ∈ em', x ∈ P) := by
  intro steps
  induction steps with
  | nil =>
      intro r ek em _ _ hek hem
      exact ⟨ek, em, rfl, hek, hem⟩
  | cons st rest ih =>
      intro r ek em hd hp hek hem
      have hdst : ∀ k ∈ st.codes, k ∉ r.keys ∧ k ∉ r.mods := by
        intro k hk
        exact hd k
          (by rw [stepsCodes_cons]; exact List.mem_append_left _ hk)
      have hpst : ∀ k ∈ st.pressedCodes, k ∈ P := by
        intro k hk
        exact hp k
          (by rw [stepsPressedCodes_cons]; exact List.mem_append_left _ hk)
      obtain ⟨ek1, em1, heq, hek1, hem1⟩ :=
        applyStep_extra P st r ek em hdst hpst hek hem
      have hdrest : ∀ k ∈ stepsCodes rest, k ∉ r.keys ∧ k ∉ r.mods := by
        intro k hk
        exact hd k
          (by rw [stepsCodes_cons]; exact List.mem_append_right _ hk)
      have hprest : ∀ k ∈ stepsPressedCodes rest, k ∈ P := by
        intro k hk
        exact hp k
          (by rw [stepsPressedCodes_cons]; exact List.mem_append_right _ hk)
      obtain ⟨ek', em', heq', hek', hem'⟩ :=
        ih r ek1 em1 hdrest hprest hek1 hem1
      refine ⟨ek', em', ?_, hek', hem'⟩
      simpa [runSteps, heq] using heq'

/-- Helper: every keycode a step sequence presses is mentioned by it. -/
theorem pressed_subset_codes (steps : List MacroStep) :
    ∀ k ∈ stepsPressedCodes steps, k ∈ stepsCodes steps := by
  induction steps with
  | nil =>
      intro k hk
      exact absurd hk (List.not_mem_nil k)
  | cons st rest ih =>
      intro k hk
      rw [stepsPressedCodes_cons] at hk
      rw [stepsCodes_cons]
      rcases List.mem_append.mp hk with h | h
      · apply List.mem_append_left
        cases st with
        | press k' => simpa [MacroStep.pressedCodes, MacroStep.codes] using h
        | release k' =>
            simp [MacroStep.pressedCodes] at h
        | delay d =>
            simp [MacroStep.pressedCodes] at h
      · exact List.mem_append_right _ (ih k h)

/-- C3 counterexample: with the left-Shift modifier already held before
the macro begins, fully expanding the source's SAVE macro (whose step
sequence explicitly releases Shift) does not restore the HID report
state: the pre-held modifier is gone afterwards, refuting the claim for
every starting state. -/
theorem save_roundtrip_fails_with_held_shift :
    runMacro SAVE { keys := [], mods := [Keycode.LSHIFT] } ≠
      { keys := [], mods := [Keycode.LSHIFT] } := by
  decide

/-- C3 (amended): for every macro and every HID report state holding none
of the keycodes the macro's steps mention, the full expansion from
`Expanding(0)` to completion restores the report state exactly; and for
every macro and every starting state, every keycode the macro pressed is
absent from the report once the engine transitions back to Idle, even
without an explicit Release step (auto-release safety net). -/
theorem macro_engine_roundtrip :
    (∀ (m : Macro) (r : HIDReport),
      (∀ k ∈ stepsCodes m.steps, k ∉ r.keys ∧ k ∉ r.mods) →
      runMacro m r = r) ∧
    (∀ (m : Macro) (r : HIDReport) (k : Keycode),
      k ∈ stepsPressedCodes m.steps →
      k ∉ (runMacro m r).keys ∧ k ∉ (runMacro m r).mods) := by
  constructor
  · intro m r hd
    obtain ⟨ek', em', heq, hek', hem'⟩ :=
      runSteps_extra (stepsPressedCodes m.steps) m.steps r [] []
        hd (fun _ hk => hk)
        (fun x hx => absurd hx (List.not_mem_nil x))
        (fun x hx => absurd hx (List.not_mem_nil x))
    have hbase : ({ keys := r.keys ++ [], mods := r.mods ++ [] } :
        HIDReport) = r := by
      simp
    rw [hbase] at heq
    have hkeep : ∀ l : List Keycode, (∀ a ∈ l, a ∉ r.keys ∧ a ∉ r.mods) →
        ∀ base : List Keycode, (∀ a ∈ base, a ∈ r.keys ∨ a ∈ r.mods) →
        base.filter
          (fun k => !((stepsPressedCodes m.steps).contains k)) = base := by
      intro l _ base hbase'
      apply List.filter_eq_self.mpr
      intro a ha
      have : a ∉ stepsPressedCodes m.steps := by
        intro hmem
        have hcodes := pressed_subset_codes m.steps a hmem
        rcases hbase' a ha with h | h
        · exact (hd a hcodes).1 h
        · exact (hd a hcodes).2 h
      simpa using this
    have hdropk : ek'.filter
        (fun k => !((stepsPressedCodes m.steps).contains k)) = [] := by
      apply List.filter_eq_nil_iff.mpr
      intro a ha
      simpa using hek' a ha
    have hdropm : em'.filter
        (fun k => !((stepsPressedCodes m.steps).contains k)) = [] := by
      apply List.filter_eq_nil_iff.mpr
      intro a ha
      simpa using hem' a ha
    unfold runMacro autoRelease
    rw [heq]
    simp only [List.filter_append, hdropk, hdropm, List.append_nil]
    have hkk := hkeep [] (fun a ha => absurd ha (List.not_mem_nil a))
      r.keys (fun a ha => Or.inl ha)
    have hmm := hkeep [] (fun a ha => absurd ha (List.not_mem_nil a))
      r.mods (fun a ha => Or.inr ha)
    rw [hkk, hmm]
  · intro m r k hk
    have hc : (stepsPressedCodes m.steps).contains k = true := by
      simpa using hk
    constructor
    · intro hmem
      unfold runMacro autoRelease at hmem
      have := (List.mem_filter.mp hmem).2
      rw [hc] at this
      simp at this
    · intro hmem
      unfold runMacro autoRelease at hmem
      have := (List.mem_filter.mp hmem).2
      rw [hc] at this
      simp at this

/-- Witness for `macro_engine_roundtrip`: expanding SAVE from an empty
report returns to the empty report, and even from a report with Shift
pre-held, the keycodes SAVE pressed (for instance W) are absent at
completion. -/
theorem macro_engine_roundtrip_witness :
    runMacro SAVE HIDReport.empty = HIDReport.empty ∧
    (Keycode.W ∉
      (runMacro SAVE { keys := [], mods := [Keycode.LSHIFT] }).keys ∧
     Keycode.W ∉
      (runMacro SAVE { keys := [], mods := [Keycode.LSHIFT] }).mods) :=
  ⟨macro_engine_roundtrip.1 SAVE HIDReport.empty (by decide),
   macro_engine_roundtrip.2 SAVE
     { keys := [], mods := [Keycode.LSHIFT] } Keycode.W (by decide)⟩

/-- C1: startup validation requires every layer's length to equal
rows × cols (9 for the configured 3×3 matrix); under that precondition
the resolver's lookup `layer[logical_index]` is in bounds for every key
position, and an event whose logical index exceeds the layer length is
silently ignored (the lookup returns `none`) rather than raising. -/
theorem validated_keymap_lookup_safe :
    ∀ km : List (List Action), validateKeymap km numRows numCols = true →
    ∀ layer ∈ km,
      (∀ (o : DiodeOrientation) (r c : Nat), r < numRows → c < numCols →
        (resolveAction layer (logicalIndex o numCols r c)).isSome = true) ∧
      (∀ idx : Nat, layer.length ≤ idx → resolveAction layer idx = none) := by
  intro km hval layer hmem
  have hall := List.all_eq_true.mp hval layer hmem
  have hlen : layer.length = numRows * numCols := by
    simpa using hall
  constructor
  · intro o r c hr hc
    have hrows : numRows = 3 := rfl
    have hcols : numCols = 3 := rfl
    have hidx : logicalIndex o numCols r c < layer.length := by
      unfold logicalIndex
      rw [hlen, hrows, hcols]
      rw [hrows] at hr
      rw [hcols] at hc
      omega
    simp [resolveAction, List.get?_eq_getElem?, List.getElem?_eq_getElem hidx]
  · intro idx hidx
    simp [resolveAction, List.get?_eq_getElem?, List.getElem?_eq_none hidx]

/-- Witness for `validated_keymap_lookup_safe`: the configured keymap
(the grid read as layer 0) passes validation, position (2,0) resolves,
and index 9 is silently ignored. -/
theorem validated_keymap_lookup_safe_witness :
    (resolveAction layer0
      (logicalIndex DiodeOrientation.COL2ROW numCols 2 0)).isSome = true ∧
    resolveAction layer0 9 = none :=
  ⟨((validated_keymap_lookup_safe keymap (by decide) layer0
      (by simp [keymap])).1 DiodeOrientation.COL2ROW 2 0
      (by decide) (by decide)),
   ((validated_keymap_lookup_safe keymap (by decide) layer0
      (by simp [keymap])).2 9 (by decide))⟩

/-- C2: the decoder returns `row * num_cols + col` for every position and
both diode orientations; changing the orientation changes only which side
is driven and which is sampled, never the logical index. -/
theorem decoder_orientation_independent :
    (∀ (o : DiodeOrientation) (n r c : Nat),
      logicalIndex o n r c = r * n + c) ∧
    (∀ n r c : Nat,
      logicalIndex DiodeOrientation.COL2ROW n r c =
        logicalIndex DiodeOrientation.ROW2COL n r c) ∧
    strobeSides DiodeOrientation.COL2ROW ≠
      strobeSides DiodeOrientation.ROW2COL :=
  ⟨fun _ _ _ _ => rfl, fun _ _ _ => rfl, by decide⟩

/-- C4: pressing a further non-modifier keycode into a report already
holding the maximum number (6) of non-modifier keycodes leaves the sink
state unchanged (the key is dropped, never queued, and the total function
raises no error). -/
theorem press_on_full_report_dropped (s : SinkState) (k : Keycode)
    (hfull : s.report.keys.length = hidSlots)
    (hk : k.isModifier = false) :
    sinkApply k KeyEventKind.Pressed s = s := by
  have hr : pressKey k s.report = s.report := by
    by_cases hmem : k ∈ s.report.keys
    · simp [pressKey, hk, hmem]
    · simp [pressKey, hk, hmem, hfull]
  simp [sinkApply, hr]

/-- Witness for `press_on_full_report_dropped`: a 7th press of `KC.W` on
a report holding six keys is dropped. -/
theorem press_on_full_report_dropped_witness :
    sinkApply Keycode.W KeyEventKind.Pressed
      { report := { keys := [Keycode.N0, Keycode.N1, Keycode.N2,
                             Keycode.N3, Keycode.N4, Keycode.N5],
                    mods := [] }, dirty := false } =
      { report := { keys := [Keycode.N0, Keycode.N1, Keycode.N2,
                             Keycode.N3, Keycode.N4, Keycode.N5],
                    mods := [] }, dirty := false } :=
  press_on_full_report_dropped _ Keycode.W rfl rfl

/-- C5: with the configured matrix and orientation, a press at (2,0)
resolves to the SAVE macro; its expansion through the sink submits
Shift+Semicolon, then W, then Enter, each flushed and then cleared, in
that order (a sublist of the full per-step flush trace), and the final
report is empty. -/
theorem save_macro_scenario :
    resolveAction layer0
      (logicalIndex diode_orientation numCols 2 0) =
        some (Action.macroRef SAVE) ∧
    (runStepsTrace SAVE.steps
      { report := HIDReport.empty, dirty := false }).2 =
      [{ keys := [], mods := [Keycode.LSHIFT] },
       { keys := [Keycode.SCOLON], mods := [Keycode.LSHIFT] },
       { keys := [], mods := [Keycode.LSHIFT] },
       { keys := [], mods := [] },
       { keys := [Keycode.W], mods := [] },
       { keys := [], mods := [] },
       { keys := [Keycode.ENTER], mods := [] },
       { keys := [], mods := [] }] ∧
    List.Sublist
      [{ keys := [Keycode.SCOLON], mods := [Keycode.LSHIFT] },
       { keys := [], mods := [] },
       { keys := [Keycode.W], mods := [] },
       { keys := [], mods := [] },
       { keys := [Keycode.ENTER], mods := [] },
       { keys := [], mods := [] }]
      (runStepsTrace SAVE.steps
        { report := HIDReport.empty, dirty := false }).2 ∧
    (runStepsTrace SAVE.steps
      { report := HIDReport.empty, dirty := false }).1.report =
      HIDReport.empty := by
  refine ⟨rfl, rfl, ?_, rfl⟩
  decide

/-- C7: releasing a keycode absent from the report is a no-op on the
whole sink state (key set, modifier mask and dirty flag unchanged), and a
clean sink submits nothing on flush. -/
theorem release_absent_noop (s : SinkState) (k : Keycode)
    (hkeys : k ∉ s.report.keys) (hmods : k ∉ s.report.mods) :
    sinkApply k KeyEventKind.Released s = s ∧
    (s.dirty = false → flushTick s = (s, none)) := by
  have hr : releaseKey k s.report = s.report := by
    by_cases hm : k.isModifier
    · simp [releaseKey, hm, hmods]
    · simp [releaseKey, hm, hkeys]
  constructor
  · simp [sinkApply, hr]
  · intro hd
    simp [flushTick, hd]

/-- Witness for `release_absent_noop`: releasing `KC.N0` while only `W`
and Shift are held changes nothing and triggers no flush. -/
theorem release_absent_noop_witness :
    sinkApply Keycode.N0 KeyEventKind.Released
      { report := { keys := [Keycode.W], mods := [Keycode.LSHIFT] },
        dirty := false } =
      { report := { keys := [Keycode.W], mods := [Keycode.LSHIFT] },
        dirty := false } ∧
    flushTick
      { report := { keys := [Keycode.W], mods := [Keycode.LSHIFT] },
        dirty := false } =
      ({ report := { keys := [Keycode.W], mods := [Keycode.LSHIFT] },
         dirty := false }, none) :=
  ⟨(release_absent_noop _ Keycode.N0 (by decide) (by decide)).1,
   (release_absent_noop _ Keycode.N0 (by decide) (by decide)).2 rfl⟩

/-- C8: with the configured `dim_time=10` and `off_time=60`, the display
is Bright below 10 seconds idle, Dimmed from 10 to just below 60, Off
from 60 on; any key event resets the inactivity clock to 0 and the state
to Bright immediately - in particular after 61 idle seconds. -/
theorem display_idle_transitions :
    (∀ s : DisplayTimerState, s.idle < displayConfig.dim_time →
      displayPower displayConfig s = DisplayPower.Bright) ∧
    (∀ s : DisplayTimerState, displayConfig.dim_time ≤ s.idle →
      s.idle < displayConfig.off_time →
      displayPower displayConfig s = DisplayPower.Dimmed) ∧
    (∀ s : DisplayTimerState, displayConfig.off_time ≤ s.idle →
      displayPower displayConfig s = DisplayPower.Off) ∧
    (∀ s : DisplayTimerState,
      displayStep s DisplayInput.event = { idle := 0 } ∧
      displayPower displayConfig (displayStep s DisplayInput.event) =
        DisplayPower.Bright) ∧
    displayRun { idle := 0 } (List.replicate 61 DisplayInput.second) =
      { idle := 61 } ∧
    displayPower displayConfig
      (displayRun { idle := 0 }
        (List.replicate 61 DisplayInput.second ++ [DisplayInput.event])) =
      DisplayPower.Bright := by
  have hdim : displayConfig.dim_time = 10 := rfl
  have hoff : displayConfig.off_time = 60 := rfl
  refine ⟨?_, ?_, ?_, ?_, by decide, by decide⟩
  · intro s h
    rw [hdim] at h
    have h1 : ¬ (displayConfig.off_time ≤ s.idle) := by rw [hoff]; omega
    have h2 : ¬ (displayConfig.dim_time ≤ s.idle) := by rw [hdim]; omega
    simp [displayPower, h1, h2]
  · intro s h h'
    rw [hdim] at h
    rw [hoff] at h'
    have h1 : ¬ (displayConfig.off_time ≤ s.idle) := by rw [hoff]; omega
    have h2 : displayConfig.dim_time ≤ s.idle := by rw [hdim]; omega
    simp [displayPower, h1, h2]
  · intro s h
    simp [displayPower, h]
  · intro s
    exact ⟨rfl, rfl⟩

/-- Witness for `display_idle_transitions`: concrete idle times 9, 10,
59, 60 and an event arriving at 61 seconds. -/
theorem display_idle_transitions_witness :
    displayPower displayConfig { idle := 9 } = DisplayPower.Bright ∧
    displayPower displayConfig { idle := 10 } = DisplayPower.Dimmed ∧
    displayPower displayConfig { idle := 59 } = DisplayPower.Dimmed ∧
    displayPower displayConfig { idle := 60 } = DisplayPower.Off ∧
    displayPower displayConfig
      (displayStep { idle := 61 } DisplayInput.event) =
      DisplayPower.Bright :=
  ⟨display_idle_transitions.1 { idle := 9 } (by decide),
   display_idle_transitions.2.1 { idle := 10 } (by decide) (by decide),
   display_idle_transitions.2.1 { idle := 59 } (by decide) (by decide),
   display_idle_transitions.2.2.1 { idle := 60 } (by decide),
   (display_idle_transitions.2.2.2.1 { idle := 61 }).2⟩

/-- Helper: the debouncer over a concatenation runs the pieces in
sequence and concatenates the emitted events. -/
theorem debounceRun_append (w : Nat) (s : DebounceState)
    (l1 l2 : List Bool) :
    debounceRun w s (l1 ++ l2) =
      ((debounceRun w (debounceRun w s l1).1 l2).1,
       (debounceRun w s l1).2 ++
         (debounceRun w (debounceRun w s l1).1 l2).2) := by
  induction l1 generalizing s with
  | nil => simp [debounceRun]
  | cons x xs ih => simp [debounceRun, ih, List.append_assoc]

/-- Helper: released-level samples keep the debouncer Idle and emit
nothing. -/
theorem debounceRun_idle_lows (w a : Nat) :
    debounceRun w DebounceState.Idle (List.replicate a false) =
      (DebounceState.Idle, []) := by
  induction a with
  | zero => rfl
  | succ n ih => simp [List.replicate_succ, debounceRun, debounceStep, ih]

/-- Helper: pressed-level samples keep the debouncer in Pressed and emit
nothing. -/
theorem debounceRun_pressed_highs (w b : Nat) :
    debounceRun w DebounceState.Pressed (List.replicate b true) =
      (DebounceState.Pressed, []) := by
  induction b with
  | zero => rfl
  | succ n ih => simp [List.replicate_succ, debounceRun, debounceStep, ih]

/-- Helper: from PressPending with `c` stable samples seen, enough
further pressed-level samples to fill the window emit exactly one
Pressed edge and land in Pressed. -/
theorem debounceRun_pressPending_highs (w : Nat) :
    ∀ b c : Nat, c < w → w ≤ c + b →
    debounceRun w (DebounceState.PressPending c)
      (List.replicate b true) =
      (DebounceState.Pressed, [KeyEventKind.Pressed]) := by
  intro b
  induction b with
  | zero =>
      intro c h1 h2
      omega
  | succ n ih =>
      intro c h1 h2
      rw [List.replicate_succ]
      by_cases hacc : w ≤ c + 1
      · simp [debounceRun, debounceStep, hacc, debounceRun_pressed_highs]
      · have hrec := ih (c + 1) (by omega) (by omega)
        simp [debounceRun, debounceStep, hacc, hrec]

/-- Helper: from ReleasePending with `c` stable samples seen, enough
further released-level samples to fill the window emit exactly one
Released edge and land in Idle. -/
theorem debounceRun_releasePending_lows (w : Nat) :
    ∀ b c : Nat, c < w → w ≤ c + b →
    debounceRun w (DebounceState.ReleasePending c)
      (List.replicate b false) =
      (DebounceState.Idle, [KeyEventKind.Released]) := by
  intro b
  induction b with
  | zero =>
      intro c h1 h2
      omega
  | succ n ih =>
      intro c h1 h2
      rw [List.replicate_succ]
      by_cases hacc : w ≤ c + 1
      · simp [debounceRun, debounceStep, hacc, debounceRun_idle_lows]
      · have hrec := ih (c + 1) (by omega) (by omega)
        simp [debounceRun, debounceStep, hacc, hrec]

/-- Helper: from Idle, at least a window's worth of pressed-level samples
emits exactly one Pressed edge. -/
theorem debounceRun_idle_highs (w b : Nat) (hw : 1 ≤ w) (hb : w ≤ b) :
    debounceRun w DebounceState.Idle (List.replicate b true) =
      (DebounceState.Pressed, [KeyEventKind.Pressed]) := by
  cases b with
  | zero => omega
  | succ n =>
      rw [List.replicate_succ]
      by_cases h1 : w ≤ 1
      · simp [debounceRun, debounceStep, h1, debounceRun_pressed_highs]
      · have hrec := debounceRun_pressPending_highs w n 1 (by omega)
          (by omega)
        simp [debounceRun, debounceStep, h1, hrec]

/-- Helper: from Pressed, at least a window's worth of released-level
samples emits exactly one Released edge. -/
theorem debounceRun_pressed_lows (w c : Nat) (hw : 1 ≤ w) (hc : w ≤ c) :
    debounceRun w DebounceState.Pressed (List.replicate c false) =
      (DebounceState.Idle, [KeyEventKind.Released]) := by
  cases c with
  | zero => omega
  | succ n =>
      rw [List.replicate_succ]
      by_cases h1 : w ≤ 1
      · simp [debounceRun, debounceStep, h1, debounceRun_idle_lows]
      · have hrec := debounceRun_releasePending_lows w n 1 (by omega)
          (by omega)
        simp [debounceRun, debounceStep, h1, hrec]

/-- Helper: a pending press shorter than the window accumulates its count
and emits no edge. -/
theorem debounceRun_pressPending_short (w : Nat) :
    ∀ b c : Nat, c + b < w →
    debounceRun w (DebounceState.PressPending c)
      (List.replicate b true) =
      (DebounceState.PressPending (c + b), []) := by
  intro b
  induction b with
  | zero =>
      intro c h
      rfl
  | succ n ih =>
      intro c h
      rw [List.replicate_succ]
      have hacc : ¬ w ≤ c + 1 := by omega
      have hrec := ih (c + 1) (by omega)
      have harith : c + 1 + n = c + (n + 1) := by omega
      rw [harith] at hrec
      simp [debounceRun, debounceStep, hacc, hrec]

/-- Helper: from Idle, fewer pressed-level samples than the window emit
no edge at all. -/
theorem debounceRun_idle_highs_short (w b : Nat) (hb : b < w) :
    (debounceRun w DebounceState.Idle (List.replicate b true)).2 = [] := by
  cases b with
  | zero => rfl
  | succ n =>
      rw [List.replicate_succ]
      have h1 : ¬ w ≤ 1 := by omega
      have hrec := debounceRun_pressPending_short w n 1 (by omega)
      simp [debounceRun, debounceStep, h1, hrec]

/-- C6: a press edge followed by a release edge, each level held stable
for at least the debounce window, produces exactly one Pressed and one
Released event, in that order; and a press level held for less than the
window is not yet accepted (no edge is emitted), so each transition is
accepted only after the new level has been stable for the window. -/
theorem debounce_clean_press_release (w a b c : Nat) (hw : 1 ≤ w)
    (hb : w ≤ b) (hc : w ≤ c) :
    (debounceRun w DebounceState.Idle
      (List.replicate a false ++ List.replicate b true ++
        List.replicate c false)).2 =
      [KeyEventKind.Pressed, KeyEventKind.Released] ∧
    (∀ b' : Nat, b' < w →
      (debounceRun w DebounceState.Idle
        (List.replicate a false ++ List.replicate b' true)).2 = []) := by
  constructor
  · rw [List.append_assoc, debounceRun_append, debounceRun_idle_lows]
    simp only []
    rw [debounceRun_append, debounceRun_idle_highs w b hw hb]
    simp [debounceRun_pressed_lows w c hw hc]
  · intro b' hb'
    rw [debounceRun_append, debounceRun_idle_lows]
    simp [debounceRun_idle_highs_short w b' hb']

/-- Witness for `debounce_clean_press_release`: a 5-tick window, 3 idle
samples, 5 pressed samples, 5 released samples give exactly one Pressed
then one Released; 4 pressed samples give nothing. -/
theorem debounce_clean_press_release_witness :
    (debounceRun 5 DebounceState.Idle
      (List.replicate 3 false ++ List.replicate 5 true ++
        List.replicate 5 false)).2 =
      [KeyEventKind.Pressed, KeyEventKind.Released] ∧
    (debounceRun 5 DebounceState.Idle
      (List.replicate 3 false ++ List.replicate 4 true)).2 = [] :=
  ⟨(debounce_clean_press_release 5 3 5 5 (by decide) (by decide)
      (by decide)).1,
   (debounce_clean_press_release 5 3 5 5 (by decide) (by decide)
      (by decide)).2 4 (by decide)⟩

/-- C9: for every combination of peripheral-constructor failures, the
matrix is still configured; the LED extension is present exactly when its
constructor does not raise, and the display extension is present exactly
when the I2C bus, the SSD1306 driver and the Display constructor all
succeed - so one peripheral's failure never disables the other or the
matrix. -/
theorem peripheral_failure_isolated :
    ∀ i2cR ssdR dispR ledR : Bool,
      (setupKeyboard i2cR ssdR dispR ledR).matrixConfigured = true ∧
      ((Extension.led ∈ (setupKeyboard i2cR ssdR dispR ledR).extensions) ↔
        ledR = false) ∧
      ((Extension.display ∈
          (setupKeyboard i2cR ssdR dispR ledR).extensions) ↔
        (i2cR = false ∧ ssdR = false ∧ dispR = false)) := by
  decide

/-- C10 counterexample: a `KeyboardInterrupt` raised out of
`keyboard.go()` is not caught by the source's `except Exception` handler;
it propagates instead of being reported as a fatal error, refuting the
claim that every exception is caught at the entry point. -/
theorem keyboard_interrupt_not_caught :
    handleGoError PyError.keyboardInterrupt =
      MainOutcome.propagated PyError.keyboardInterrupt ∧
    (handleGoError PyError.keyboardInterrupt).isFatalReported = false := by
  decide

/-- C10 (amended): every `Exception`-derived error raised out of
`keyboard.go()` is caught by the entry point's handler and reported as a
fatal error with its type name, after which the script halts. -/
theorem go_exception_reported (e : PyError)
    (h : e.isExceptionSubclass = true) :
    handleGoError e = MainOutcome.fatalReported e.typeName := by
  simp [handleGoError, h]

/-- Witness for `go_exception_reported`: a `ValueError` out of
`keyboard.go()` is reported as fatal. -/
theorem go_exception_reported_witness :
    handleGoError PyError.valueError =
      MainOutcome.fatalReported "ValueError" :=
  go_exception_reported PyError.valueError rfl

end Hackpad
